import Mathlib

/-!
Shallow embedding of the weekly low-lecture compliance engine of the
maintenance-center server (source: src/unnamed/part_001, an Express router).

Conventions of the embedding:
* JavaScript `Date` values are modelled by `DateTime`: a day number
  (days since an epoch whose day 0 is a Sunday, so `day % 7` is
  exactly JS `getDay()`) together with milliseconds within the day.
  JS `Date` comparison compares milliseconds since the epoch, modelled
  by `DateTime.toMillis`.
* Mongo collections are Lean lists held in a `Store`; `findOne` is
  `List.find?`, `deleteMany` is `List.filter` with the negated filter,
  and an insert appends to the list.
* Missing / undefined nested arrays are modelled as `[]` (the code
  treats them as empty via `Array.isArray` guards), and the optional
  `studentEmail` field of a lecture is an `Option String` (the code
  guards it with JS truthiness, which also rejects the empty string).
-/

/-- Milliseconds in one day, as used by the boundary 23:59:59.999. -/
def msPerDay : Int := 86400000

/-- A JS `Date`: day number since an epoch Sunday plus ms within the day. -/
structure DateTime where
  day : Int
  ms : Int
deriving DecidableEq, Repr

/-- Milliseconds since the epoch; JS `Date` comparison compares this value. -/
def DateTime.toMillis (d : DateTime) : Int :=
  d.day * msPerDay + d.ms

/-- JS `now.getDay()`: 0 = Sunday .. 6 = Saturday. -/
def DateTime.getDay (d : DateTime) : Int :=
  d.day % 7

/-- `daysToPreviousSaturday` of `checkLowLectureMembers` / the GET route:
`(dayOfWeek + 1) % 7`, coerced to 7 when it is 0. -/
def daysToPreviousSaturday (now : DateTime) : Int :=
  let d := (now.getDay + 1) % 7
  if d = 0 then 7 else d

/-- The computed week window: `weekStart`/`weekEnd` of the source. -/
structure Window where
  weekStart : DateTime
  weekEnd : DateTime
deriving DecidableEq, Repr

/-- The week-window computation shared by `checkLowLectureMembers` and the
GET `/low-lecture-members` route: `previousSaturday = now - daysToPreviousSaturday`
(days), `weekStart = previousSaturday - 7 days` at 00:00:00.000,
`weekEnd = previousSaturday - 1 day` at 23:59:59.999. -/
def computeWindow (now : DateTime) : Window :=
  let prevSatDay := now.day - daysToPreviousSaturday now
  { weekStart := { day := prevSatDay - 7, ms := 0 }
    weekEnd := { day := prevSatDay - 1, ms := 86399999 } }

/-! ## Data model (mongoose documents of the repository) -/

/-- A subject assignment of a student: name plus required weekly minimum. -/
structure SubjectAssignment where
  name : String
  minLectures : Nat
deriving DecidableEq, Repr

/-- A student embedded in a volunteer account. -/
structure Student where
  name : String
  email : String
  academicLevel : String
  subjects : List SubjectAssignment
deriving DecidableEq, Repr

/-- A lecture embedded in a volunteer account; `studentEmail` is optional. -/
structure Lecture where
  id : Nat
  link : String
  name : String
  subject : String
  studentEmail : Option String
  createdAt : DateTime
deriving DecidableEq, Repr

/-- A volunteer account (the `User` mongoose model). -/
structure User where
  id : Nat
  email : String
  role : String
  students : List Student
  lectures : List Lecture
  lectureCount : Nat
  lowLectureWeekCount : Nat
  lastLowLectureWeek : Option DateTime
deriving DecidableEq, Repr

/-- A membership record (the `JoinRequest` mongoose model). -/
structure JoinRequest where
  email : String
  name : String
  status : String
  volunteerHours : Nat
deriving DecidableEq, Repr

/-- The `lectureDetails` payload of a notification; the fields not present
for a given notification kind are `none`. -/
structure NotifDetails where
  subject : String
  studentEmail : String
  link : Option String
  name : Option String
  minLectures : Option Nat
  currentLectures : Option Nat
deriving DecidableEq, Repr

/-- A notification document. -/
structure Notification where
  userId : Nat
  message : String
  type : String
  details : NotifDetails
deriving DecidableEq, Repr

/-- The member projection stored in responses and reports: an entry of
`underTargetSubjects`. -/
structure UnderTargetSubject where
  name : String
  minLectures : Nat
  deliveredLectures : Nat
deriving DecidableEq, Repr

/-- An entry of `underTargetStudents` in a flagged member. -/
structure UnderTargetStudent where
  studentName : String
  studentEmail : String
  academicLevel : String
  underTargetSubjects : List UnderTargetSubject
deriving DecidableEq, Repr

/-- The lecture projection attached to a flagged member. -/
structure LectureView where
  id : Nat
  name : String
  subject : String
  studentEmail : Option String
  link : String
  createdAt : DateTime
deriving DecidableEq, Repr

/-- A flagged member in the run result / report. -/
structure Member where
  id : Nat
  name : String
  email : String
  lowLectureWeekCount : Nat
  underTargetStudents : List UnderTargetStudent
  lectures : List LectureView
deriving DecidableEq, Repr

/-- A `LowLectureReport` document. -/
structure LowLectureReport where
  weekStart : DateTime
  weekEnd : DateTime
  members : List Member
  totalUsersProcessed : Nat
  membersWithLowLectures : Nat
  createdAt : DateTime
deriving DecidableEq, Repr

/-- The backing document store. -/
@[ext]
structure Store where
  users : List User
  joinRequests : List JoinRequest
  notifications : List Notification
  reports : List LowLectureReport
deriving DecidableEq, Repr

/-- The value returned by `checkLowLectureMembers` (the `debug` object is
flattened into the last four fields). -/
structure RunResult where
  success : Bool
  message : String
  members : List Member
  totalUsersProcessed : Nat
  weekStart : DateTime
  weekEnd : DateTime
  membersWithLowLectures : Nat
deriving DecidableEq, Repr

/-! ## The compliance evaluator (`checkLowLectureMembers`) -/

/-- JS `String.prototype.toLowerCase` on the character sequence. -/
def toLowerStr (s : String) : String :=
  ⟨s.data.map Char.toLower⟩

/-- JS `String.prototype.trim`: strip whitespace from both ends. -/
def trimStr (s : String) : String :=
  ⟨List.reverse (List.dropWhile Char.isWhitespace
    (List.reverse (List.dropWhile Char.isWhitespace s.data)))⟩

/-- `email.toLowerCase().trim()`, the normalization used throughout. -/
def normEmail (s : String) : String :=
  trimStr (toLowerStr s)

/-- `JoinRequest.findOne({ email: user.email.toLowerCase().trim() })`. -/
def findJoinRequest (jrs : List JoinRequest) (userEmail : String) :
    Option JoinRequest :=
  jrs.find? (fun j => j.email == normEmail userEmail)

/-- The filter of the per-subject lecture count: `matchesTimeFrame`
(inclusive on both bounds), `matchesStudent` (JS truthiness on
`lecture.studentEmail`, then lowercase+trim equality) and
`matchesSubject` (exact string equality). -/
def lectureMatches (ws we : DateTime) (studentEmail subjName : String)
    (l : Lecture) : Bool :=
  (decide (ws.toMillis ≤ l.createdAt.toMillis) &&
      decide (l.createdAt.toMillis ≤ we.toMillis)) &&
  (match l.studentEmail with
   | none => false
   | some e => !(e == "") && (normEmail e == normEmail studentEmail)) &&
  (l.subject == subjName)

/-- `user.lectures.filter(...).length` for one (student, subject) pair. -/
def lectureCountFor (lects : List Lecture) (ws we : DateTime)
    (studentEmail subjName : String) : Nat :=
  (lects.filter (lectureMatches ws we studentEmail subjName)).length

/-- The `studentUnderTargetSubjects` computed for one student: one entry
per subject assignment whose weekly count is strictly below its
`minLectures`. An empty (or absent) `subjects` array yields no entries. -/
def underTargetSubjectsFor (ws we : DateTime) (lects : List Lecture)
    (st : Student) : List UnderTargetSubject :=
  st.subjects.filterMap (fun subj =>
    let c := lectureCountFor lects ws we st.email subj.name
    if c < subj.minLectures then
      some { name := subj.name, minLectures := subj.minLectures,
             deliveredLectures := c }
    else none)

/-- The `userUnderTargetStudents` list of one volunteer: students whose
under-target subject list is nonempty, with the JS `||` fallbacks on
name and academic level. -/
def underTargetStudentsFor (ws we : DateTime) (u : User) :
    List UnderTargetStudent :=
  u.students.filterMap (fun st =>
    let uts := underTargetSubjectsFor ws we u.lectures st
    if uts.isEmpty then none
    else some
      { studentName := if st.name == "" then "اسم غير متوفر" else st.name
        studentEmail := normEmail st.email
        academicLevel := if st.academicLevel == "" then "غير محدد" else st.academicLevel
        underTargetSubjects := uts })

/-- The guard of the counter increment:
`!user.lastLowLectureWeek || user.lastLowLectureWeek < weekStart`. -/
def bumpGuard (ws : DateTime) (u : User) : Bool :=
  match u.lastLowLectureWeek with
  | none => true
  | some w => decide (w.toMillis < ws.toMillis)

/-- The volunteer record after one evaluator pass: counters are only
touched in cron mode, either incremented (flagged and guard passes) or
reset to zero (fully compliant, including the zero-students case, with a
nonzero counter); volunteers without an approved membership are untouched. -/
def updatedUser (isCronJob : Bool) (ws we : DateTime)
    (jrs : List JoinRequest) (u : User) : User :=
  match findJoinRequest jrs u.email with
  | none => u
  | some jr =>
    if jr.status == "Approved" then
      if (underTargetStudentsFor ws we u).isEmpty then
        if isCronJob && decide (0 < u.lowLectureWeekCount) then
          { u with lowLectureWeekCount := 0, lastLowLectureWeek := none }
        else u
      else
        if isCronJob && bumpGuard ws u then
          { u with lowLectureWeekCount := u.lowLectureWeekCount + 1,
                   lastLowLectureWeek := some ws }
        else u
    else u

/-- The response projection of an embedded lecture. -/
def lectureView (l : Lecture) : LectureView :=
  { id := l.id, name := l.name, subject := l.subject,
    studentEmail := l.studentEmail, link := l.link, createdAt := l.createdAt }

/-- The member entry pushed onto `lowLectureMembers` for one volunteer,
or `none` when the volunteer is skipped or fully compliant. The pushed
`lowLectureWeekCount` is the value after the (possible) counter update. -/
def memberFor (isCronJob : Bool) (ws we : DateTime)
    (jrs : List JoinRequest) (u : User) : Option Member :=
  match findJoinRequest jrs u.email with
  | none => none
  | some jr =>
    if jr.status == "Approved" then
      let uts := underTargetStudentsFor ws we u
      if uts.isEmpty then none
      else some
        { id := u.id
          name := if jr.name == "" then u.email else jr.name
          email := u.email
          lowLectureWeekCount := (updatedUser isCronJob ws we jrs u).lowLectureWeekCount
          underTargetStudents := uts
          lectures := u.lectures.map lectureView }
    else none

/-- The `low_lecture_count_per_subject` notification created for an
under-target (volunteer, subject, student) tuple. -/
def lowNotifFor (uid : Nat) (st : Student) (e : UnderTargetSubject) :
    Notification :=
  { userId := uid
    message := "عدد المحاضرات الأسبوعية للطالب " ++ st.name ++ " في مادة " ++
      e.name ++ " أقل من الحد الأدنى (" ++ toString e.deliveredLectures ++
      "/" ++ toString e.minLectures ++ ")"
    type := "low_lecture_count_per_subject"
    details :=
      { subject := e.name
        studentEmail := normEmail st.email
        link := none
        name := none
        minLectures := some e.minLectures
        currentLectures := some e.deliveredLectures } }

/-- The filter of the evaluator's `Notification.findOne` existence check
(and of `Notification.deleteMany` in the lecture POST route):
matching `userId`, `type`, `lectureDetails.subject` and
`lectureDetails.studentEmail`. -/
def keyMatch (uid : Nat) (subj em : String) (n : Notification) : Bool :=
  n.userId == uid && (n.type == "low_lecture_count_per_subject") &&
    (n.details.subject == subj) && (n.details.studentEmail == em)

/-- `Notification.findOne({...}).session(session) !== null`; the query runs
inside the transaction, so it sees notifications created earlier in the run. -/
def notifExists (notifs : List Notification) (uid : Nat) (subj em : String) :
    Bool :=
  notifs.any (keyMatch uid subj em)

/-- The notifications appended while processing one volunteer in cron
mode: for every under-target (student, subject) pair, in student order
then subject order, create the notification unless one with the same key
already exists. Volunteers without an approved membership, and
non-cron runs, append nothing. -/
def userNotifStep (isCronJob : Bool) (ws we : DateTime)
    (jrs : List JoinRequest) (u : User) (notifs : List Notification) :
    List Notification :=
  match findJoinRequest jrs u.email with
  | none => notifs
  | some jr =>
    if jr.status == "Approved" && isCronJob then
      u.students.foldl (fun acc st =>
        (underTargetSubjectsFor ws we u.lectures st).foldl (fun acc2 e =>
          if notifExists acc2 u.id e.name (normEmail st.email) then acc2
          else acc2 ++ [lowNotifFor u.id st e]) acc) notifs
    else notifs

/-- One iteration of the `for (const user of users)` loop, acting on the
triple (updated user list, flagged member list, notification list).
Only volunteers with role `user` are loaded by `User.find({role:'user'})`;
the others pass through untouched. -/
def runStep (isCronJob : Bool) (ws we : DateTime) (jrs : List JoinRequest)
    (acc : List User × List Member × List Notification) (u : User) :
    List User × List Member × List Notification :=
  if u.role == "user" then
    (acc.1 ++ [updatedUser isCronJob ws we jrs u],
     acc.2.1 ++ (memberFor isCronJob ws we jrs u).toList,
     userNotifStep isCronJob ws we jrs u acc.2.2)
  else
    (acc.1 ++ [u], acc.2.1, acc.2.2)

/-- The success / empty message of the run and of the cached GET response. -/
def runMessage (n : Nat) : String :=
  if 0 < n then
    "تم العثور على " ++ toString n ++ " عضو لديهم محاضرات أقل من الحد الأدنى"
  else
    "جميع الأعضاء يحققون الحد الأدنى من المحاضرات الأسبوعية"

/-- `checkLowLectureMembers(isCronJob)`: computes the window from `now`,
processes every volunteer with role `user`, and in cron mode appends the
`LowLectureReport` snapshot. Returns the final store together with the
response value. -/
def checkLowLectureMembers (isCronJob : Bool) (now : DateTime) (s : Store) :
    Store × RunResult :=
  let w := computeWindow now
  let ws := w.weekStart
  let we := w.weekEnd
  let total := (s.users.filter (fun u => u.role == "user")).length
  let out := s.users.foldl (runStep isCronJob ws we s.joinRequests)
    ([], [], s.notifications)
  let members := out.2.1
  let newReport : LowLectureReport :=
    { weekStart := ws
      weekEnd := we
      members := members
      totalUsersProcessed := total
      membersWithLowLectures := members.length
      createdAt := now }
  let reports :=
    if isCronJob then s.reports ++ [newReport] else s.reports
  ({ users := out.1, joinRequests := s.joinRequests,
     notifications := out.2.2, reports := reports },
   { success := true
     message := runMessage members.length
     members := members
     totalUsersProcessed := total
     weekStart := ws
     weekEnd := we
     membersWithLowLectures := members.length })

/-- `LowLectureReport.findOne({ weekStart }).sort({ createdAt: -1 })`:
the first report, in descending `createdAt` order (stable, so ties keep
collection order), whose `weekStart` equals the computed one. -/
def findLatestReport (reports : List LowLectureReport) (ws : DateTime) :
    Option LowLectureReport :=
  reports.foldl (fun acc r =>
    if r.weekStart.toMillis == ws.toMillis then
      match acc with
      | none => some r
      | some b =>
        if decide (b.createdAt.toMillis < r.createdAt.toMillis) then some r
        else some b
    else acc) none

/-- The GET `/low-lecture-members` handler: look up the latest cached
report for the computed `weekStart`; if present answer from the report,
otherwise run the evaluator in non-cron mode. -/
def getLowLectureMembers (now : DateTime) (s : Store) : Store × RunResult :=
  let ws := (computeWindow now).weekStart
  match findLatestReport s.reports ws with
  | some r =>
    (s,
     { success := true
       message := runMessage r.members.length
       members := r.members
       totalUsersProcessed := r.totalUsersProcessed
       weekStart := r.weekStart
       weekEnd := r.weekEnd
       membersWithLowLectures := r.membersWithLowLectures })
  | none => checkLowLectureMembers false now s

/-- The transactional wrapper of the scheduled / on-demand run. The code
opens a mongoose session, performs every read and write on that session,
and on any thrown error calls `abortTransaction` and rethrows; `fail`
abstracts "some session read or write raised". Abort discards every
in-transaction write, so the store is returned unchanged on failure. -/
def runCheckTx (fail : Bool) (isCronJob : Bool) (now : DateTime) (s : Store) :
    Store × Except String RunResult :=
  if fail then (s, Except.error "db error")
  else
    let r := checkLowLectureMembers isCronJob now s
    (r.1, Except.ok r.2)

/-- Replace the first element satisfying `p` (the document a `findOne` /
`findById` returned and later `save`d). -/
def updateFirst {α : Type} (p : α → Bool) (f : α → α) : List α → List α
  | [] => []
  | x :: xs => if p x then f x :: xs else x :: updateFirst p f xs

/-- The `router.post('/')` handler (add a lecture), with the external
`validator.isURL` / `validator.isEmail` checks passed in as predicates
and `newId` the id mongoose mints for the embedded lecture. On success
it pushes the lecture, bumps `lectureCount` and `volunteerHours`,
deletes every `low_lecture_count_per_subject` notification of the
(volunteer, subject, student) tuple, and appends a `lecture_added`
notification. -/
def addLecture (isURL isEmail : String → Bool) (now : DateTime) (s : Store)
    (userId : Nat) (link name subject studentEmail : String) (newId : Nat) :
    Except String Store :=
  if link == "" || name == "" || subject == "" || studentEmail == "" then
    Except.error "رابط المحاضرة، الاسم، المادة، وبريد الطالب مطلوبة"
  else if !isURL link then
    Except.error "رابط المحاضرة غير صالح"
  else if !(decide (1 ≤ name.length) && decide (name.length ≤ 100)) then
    Except.error "اسم المحاضرة يجب أن يكون بين 1 و100 حرف"
  else if !(decide (1 ≤ subject.length) && decide (subject.length ≤ 100)) then
    Except.error "اسم المادة يجب أن يكون بين 1 و100 حرف"
  else if !isEmail studentEmail then
    Except.error "بريد الطالب غير صالح"
  else
    let normalized := normEmail studentEmail
    match s.users.find? (fun u => u.id == userId) with
    | none => Except.error "المستخدم غير موجود"
    | some u =>
      if !(u.students.any (fun st => toLowerStr st.email == normalized)) then
        Except.error "الطالب غير موجود"
      else
        match findJoinRequest s.joinRequests u.email with
        | none => Except.error "طلب الانضمام غير موجود"
        | some _ =>
          let lecture : Lecture :=
            { id := newId, link := link, name := name, subject := subject,
              studentEmail := some normalized, createdAt := now }
          let addedNotif : Notification :=
            { userId := userId
              message := "تمت إضافة محاضرة جديدة بواسطة " ++ u.email ++ ": " ++
                name ++ " (" ++ subject ++ ") - " ++ link
              type := "lecture_added"
              details :=
                { subject := subject
                  studentEmail := normalized
                  link := some link
                  name := some name
                  minLectures := none
                  currentLectures := none } }
          Except.ok
            { users := updateFirst (fun v => v.id == userId)
                (fun v =>
                  { v with
                    lectures := v.lectures ++ [lecture]
                    lectureCount := v.lectureCount + 1 }) s.users
              joinRequests := updateFirst
                (fun j => j.email == normEmail u.email)
                (fun j => { j with volunteerHours := j.volunteerHours + 2 })
                s.joinRequests
              notifications :=
                (s.notifications.filter
                  (fun n => !(keyMatch userId subject normalized n))) ++
                [addedNotif]
              reports := s.reports }

/-- `atMostOneLowNotif l`: at most one `low_lecture_count_per_subject`
notification per (volunteer, subject, student) key exists in `l`. -/
def atMostOneLowNotif (l : List Notification) : Prop :=
  ∀ (uid : Nat) (subj em : String), (l.countP (keyMatch uid subj em)) ≤ 1

/-! ## The spec-side counting predicate and concrete fixtures -/

/-- Modelled from the spec's counting sentence, for comparison with the
source predicate `lectureMatches`: the lecture's `createdAt` lies within
`[weekStart, weekEnd]` with inclusive bounds, its `studentEmail` is
present and nonempty and equals the student's email case-insensitively
(after lowercasing and trimming, as the code normalizes both sides), and
its `subject` exactly equals the assignment's name. -/
def lectureMatchesSpec (ws we : DateTime) (studentEmail subjName : String)
    (l : Lecture) : Prop :=
  (ws.toMillis <= l.createdAt.toMillis ∧ l.createdAt.toMillis <= we.toMillis) ∧
  (∃ e, l.studentEmail = some e ∧ e ≠ "" ∧ normEmail e = normEmail studentEmail) ∧
  l.subject = subjName

/-- Fixture: "now" is the Sunday of day 14; its window is day 6 0:00 to
day 12 23:59:59.999. -/
def wNow : DateTime := ⟨14, 0⟩

def wWs : DateTime := ⟨6, 0⟩

def wWe : DateTime := ⟨12, 86399999⟩

def wStudent : Student :=
  { name := "Sam", email := "s@x.com", academicLevel := "G10",
    subjects := [⟨"Math", 2⟩] }

/-- A lecture dated exactly at the window start, with an email matching
only case-insensitively (and up to surrounding whitespace). -/
def wLecIn : Lecture :=
  { id := 1, link := "http://l", name := "L1", subject := "Math",
    studentEmail := some "S@X.COM ", createdAt := wWs }

/-- A lecture far outside the window. -/
def wLecOld : Lecture :=
  { id := 2, link := "http://l", name := "L0", subject := "Math",
    studentEmail := some "s@x.com", createdAt := ⟨-50, 123⟩ }

def wUser : User :=
  { id := 1, email := "v@y.com", role := "user", students := [wStudent],
    lectures := [wLecIn, wLecOld], lectureCount := 2,
    lowLectureWeekCount := 1, lastLowLectureWeek := some ⟨-1, 0⟩ }

def wJr : JoinRequest :=
  { email := "v@y.com", name := "Vol", status := "Approved",
    volunteerHours := 0 }

def wStore : Store :=
  { users := [wUser], joinRequests := [wJr], notifications := [],
    reports := [] }

/-- Fixture for the reset: an approved volunteer with zero students and a
nonzero rolling counter. -/
def wUserC : User :=
  { id := 2, email := "c@y.com", role := "user", students := [],
    lectures := [], lectureCount := 0, lowLectureWeekCount := 3,
    lastLowLectureWeek := some ⟨-1, 0⟩ }

def wJrC : JoinRequest :=
  { email := "c@y.com", name := "Cal", status := "Approved",
    volunteerHours := 0 }

/-- Fixture for the silent skip: a role-`user` volunteer with no
membership record at all. -/
def wUserS : User :=
  { id := 3, email := "n@y.com", role := "user", students := [wStudent],
    lectures := [], lectureCount := 0, lowLectureWeekCount := 5,
    lastLowLectureWeek := some ⟨-1, 0⟩ }

def wStoreS : Store :=
  { users := [wUserS], joinRequests := [], notifications := [],
    reports := [] }

/-- Fixtures for the cached-report lookup: two reports for the same
`weekStart`, the second created later. -/
def wReport : LowLectureReport :=
  { weekStart := wWs, weekEnd := wWe, members := [],
    totalUsersProcessed := 7, membersWithLowLectures := 0,
    createdAt := ⟨13, 0⟩ }

def wReport2 : LowLectureReport :=
  { weekStart := wWs, weekEnd := wWe, members := [],
    totalUsersProcessed := 9, membersWithLowLectures := 0,
    createdAt := ⟨13, 500⟩ }

def wStoreR : Store :=
  { users := [], joinRequests := [], notifications := [],
    reports := [wReport, wReport2] }

/-- The member record the evaluator produces for `wUser`. -/
def wMember : Member :=
  (memberFor true wWs wWe [wJr] wUser).getD
    { id := 0, name := "", email := "", lowLectureWeekCount := 0,
      underTargetStudents := [], lectures := [] }

def wIsURL : String → Bool := fun _ => true

def wIsEmail : String → Bool := fun _ => true

/-- The store after a successful lecture submission against `wStore`. -/
def wStoreA : Store :=
  match addLecture wIsURL wIsEmail wNow wStore 1 "http://l" "L2" "Math"
      "S@X.COM " 9 with
  | Except.ok t => t
  | Except.error _ => wStore

/-- C2: for every "now", the computed window starts on a Saturday at
00:00:00.000, ends the following Friday at 23:59:59.999 (6 days later),
lies entirely before "now", and when "now" is a Saturday the
`daysToPreviousSaturday` value resolves to 7 rather than 0. -/
theorem computeWindow_spec (now : DateTime) (hms : 0 ≤ now.ms) :
    (computeWindow now).weekStart.ms = 0 ∧
    (computeWindow now).weekStart.day % 7 = 6 ∧
    (computeWindow now).weekEnd.day = (computeWindow now).weekStart.day + 6 ∧
    (computeWindow now).weekEnd.ms = 86399999 ∧
    (computeWindow now).weekEnd.day % 7 = 5 ∧
    (computeWindow now).weekEnd.toMillis < now.toMillis ∧
    (now.getDay = 6 → daysToPreviousSaturday now = 7) := by
  refine ⟨rfl, ?_, ?_, rfl, ?_, ?_, ?_⟩ <;>
    · simp only [computeWindow, daysToPreviousSaturday, DateTime.getDay, DateTime.toMillis,
        msPerDay]
      intros
      split <;> omega

/-- Witness for `computeWindow_spec` at a concrete Saturday
(day 1000006 ≡ 6 mod 7) 12:00:00 local time. -/
theorem computeWindow_spec_witness :
    (computeWindow ⟨1000006, 43200000⟩).weekStart.ms = 0 ∧
    (computeWindow ⟨1000006, 43200000⟩).weekStart.day % 7 = 6 ∧
    (computeWindow ⟨1000006, 43200000⟩).weekEnd.day =
      (computeWindow ⟨1000006, 43200000⟩).weekStart.day + 6 ∧
    (computeWindow ⟨1000006, 43200000⟩).weekEnd.ms = 86399999 ∧
    (computeWindow ⟨1000006, 43200000⟩).weekEnd.day % 7 = 5 ∧
    (computeWindow ⟨1000006, 43200000⟩).weekEnd.toMillis <
      (⟨1000006, 43200000⟩ : DateTime).toMillis ∧
    ((⟨1000006, 43200000⟩ : DateTime).getDay = 6 →
      daysToPreviousSaturday ⟨1000006, 43200000⟩ = 7) :=
  computeWindow_spec ⟨1000006, 43200000⟩ (by norm_num)

/-! ## Generic list lemmas -/

theorem foldl_preserve {α β : Type} {P : β → Prop} {f : β → α → β}
    (h : ∀ b a, P b → P (f b a)) :
    ∀ (l : List α) (b : β), P b → P (l.foldl f b) := by
  intro l
  induction l with
  | nil => intro b hb; exact hb
  | cons x xs ih => intro b hb; exact ih (f b x) (h b x hb)

theorem map_eq_self_of {α : Type} {f : α → α} (h : ∀ x, f x = x) :
    ∀ l : List α, l.map f = l := by
  intro l
  induction l with
  | nil => rfl
  | cons x xs ih => simp [h x, ih]

theorem foldl_eq_init_of {α β : Type} {f : β → α → β}
    (h : ∀ b a, f b a = b) : ∀ (l : List α) (b : β), l.foldl f b = b := by
  intro l
  induction l with
  | nil => intro b; rfl
  | cons x xs ih => intro b; rw [List.foldl_cons, h b x]; exact ih b

/-! ## Decomposition of the run fold -/

/-- The run fold projects to: users mapped through the counter update,
members collected from flagged volunteers, notifications threaded through
the per-volunteer dedup step. -/
theorem runStep_foldl_proj (isCronJob : Bool) (ws we : DateTime)
    (jrs : List JoinRequest) :
    ∀ (l : List User) (a : List User) (b : List Member)
      (c : List Notification),
      l.foldl (runStep isCronJob ws we jrs) (a, b, c) =
        (a ++ l.map (fun u =>
            if u.role == "user" then updatedUser isCronJob ws we jrs u else u),
         b ++ (l.filter (fun u => u.role == "user")).filterMap
            (memberFor isCronJob ws we jrs),
         (l.filter (fun u => u.role == "user")).foldl
            (fun acc u => userNotifStep isCronJob ws we jrs u acc) c) := by
  intro l
  induction l with
  | nil => intro a b c; simp
  | cons u us ih =>
    intro a b c
    rw [List.foldl_cons]
    by_cases hrole : u.role = "user"
    · have hb : (u.role == "user") = true := by simpa using hrole
      simp only [runStep, hb, if_pos, ih, List.filter_cons, List.map_cons, hrole,
        if_true, List.filterMap_cons]
      cases hm : memberFor isCronJob ws we jrs u <;>
        simp [hm, List.append_assoc]
    · have hb : (u.role == "user") = false := by
        simp [hrole]
      simp only [runStep, hb, Bool.false_eq_true, if_false, ih,
        List.filter_cons, List.map_cons, hrole]
      simp [List.append_assoc]

/-- The user collection after a run: every role-`user` volunteer is mapped
through the counter update, everything else is untouched. -/
theorem check_users (isCronJob : Bool) (now : DateTime) (s : Store) :
    (checkLowLectureMembers isCronJob now s).1.users =
      s.users.map (fun u =>
        if u.role == "user" then
          updatedUser isCronJob (computeWindow now).weekStart
            (computeWindow now).weekEnd s.joinRequests u
        else u) := by
  simp [checkLowLectureMembers, runStep_foldl_proj]

/-- A run never touches the join-request collection. -/
theorem check_joinRequests (isCronJob : Bool) (now : DateTime) (s : Store) :
    (checkLowLectureMembers isCronJob now s).1.joinRequests =
      s.joinRequests := by
  simp [checkLowLectureMembers]

/-- The notification collection after a run. -/
theorem check_notifications (isCronJob : Bool) (now : DateTime) (s : Store) :
    (checkLowLectureMembers isCronJob now s).1.notifications =
      (s.users.filter (fun u => u.role == "user")).foldl
        (fun acc u =>
          userNotifStep isCronJob (computeWindow now).weekStart
            (computeWindow now).weekEnd s.joinRequests u acc)
        s.notifications := by
  simp [checkLowLectureMembers, runStep_foldl_proj]

/-- The flagged-member list of a run. -/
theorem check_members (isCronJob : Bool) (now : DateTime) (s : Store) :
    (checkLowLectureMembers isCronJob now s).2.members =
      (s.users.filter (fun u => u.role == "user")).filterMap
        (memberFor isCronJob (computeWindow now).weekStart
          (computeWindow now).weekEnd s.joinRequests) := by
  simp [checkLowLectureMembers, runStep_foldl_proj]

/-- The report collection after a run: unchanged off-cron, one appended
snapshot in cron mode. -/
theorem check_reports (isCronJob : Bool) (now : DateTime) (s : Store) :
    (checkLowLectureMembers isCronJob now s).1.reports =
      (if isCronJob then
        s.reports ++
          [{ weekStart := (computeWindow now).weekStart
             weekEnd := (computeWindow now).weekEnd
             members := (checkLowLectureMembers isCronJob now s).2.members
             totalUsersProcessed :=
               (s.users.filter (fun u => u.role == "user")).length
             membersWithLowLectures :=
               (checkLowLectureMembers isCronJob now s).2.members.length
             createdAt := now }]
      else s.reports) := by
  simp [checkLowLectureMembers, runStep_foldl_proj]

/-- Off-cron, the counter update is the identity. -/
theorem updatedUser_not_cron (ws we : DateTime) (jrs : List JoinRequest)
    (u : User) : updatedUser false ws we jrs u = u := by
  unfold updatedUser
  cases findJoinRequest jrs u.email <;> simp

/-- Off-cron, the notification step is the identity. -/
theorem userNotifStep_not_cron (ws we : DateTime) (jrs : List JoinRequest)
    (u : User) (notifs : List Notification) :
    userNotifStep false ws we jrs u notifs = notifs := by
  unfold userNotifStep
  cases findJoinRequest jrs u.email <;> simp

/-- C4 core: a non-cron (on-demand) run leaves the whole store unchanged. -/
theorem check_not_cron_store (now : DateTime) (s : Store) :
    (checkLowLectureMembers false now s).1 = s := by
  have hu := check_users false now s
  have hn := check_notifications false now s
  have hr := check_reports false now s
  have hj := check_joinRequests false now s
  refine Store.ext ?_ ?_ ?_ ?_
  · rw [hu]
    simp only [updatedUser_not_cron, ite_self]
    exact map_eq_self_of (fun u => rfl) s.users
  · exact hj
  · rw [hn]
    exact foldl_eq_init_of (fun b a => userNotifStep_not_cron _ _ _ _ _) _ _
  · simpa using hr

/-- C4: the on-demand (non-scheduled) evaluation performs no persistent
mutation whatsoever: for every starting store and every "now", the store
after `checkLowLectureMembers(false)` — volunteers (including their
`lowLectureWeekCount` / `lastLowLectureWeek`), join requests,
notifications and reports — is identical to the store before it. -/
theorem onDemand_run_mutates_nothing (now : DateTime) (s : Store) :
    (checkLowLectureMembers false now s).1 = s :=
  check_not_cron_store now s


/-- The counter update touches only the two counter fields. -/
theorem updatedUser_frame (isCronJob : Bool) (ws we : DateTime)
    (jrs : List JoinRequest) (u : User) :
    (updatedUser isCronJob ws we jrs u).id = u.id ∧
    (updatedUser isCronJob ws we jrs u).email = u.email ∧
    (updatedUser isCronJob ws we jrs u).role = u.role ∧
    (updatedUser isCronJob ws we jrs u).students = u.students ∧
    (updatedUser isCronJob ws we jrs u).lectures = u.lectures := by
  cases hf : findJoinRequest jrs u.email with
  | none => simp [updatedUser, hf]
  | some jr =>
    simp only [updatedUser, hf]
    split_ifs <;> simp

/-- The under-target computation only reads `students` and `lectures`. -/
theorem underTargetStudentsFor_congr (ws we : DateTime) {u v : User}
    (hs : v.students = u.students) (hl : v.lectures = u.lectures) :
    underTargetStudentsFor ws we v = underTargetStudentsFor ws we u := by
  unfold underTargetStudentsFor
  rw [hs, hl]

/-- Applying the cron counter update twice (with the same week window and
join requests) is the same as applying it once. -/
theorem updatedUser_idem (ws we : DateTime) (jrs : List JoinRequest)
    (u : User) :
    updatedUser true ws we jrs (updatedUser true ws we jrs u) =
      updatedUser true ws we jrs u := by
  have hfr := updatedUser_frame true ws we jrs u
  have hcong : underTargetStudentsFor ws we (updatedUser true ws we jrs u) =
      underTargetStudentsFor ws we u :=
    underTargetStudentsFor_congr ws we hfr.2.2.2.1 hfr.2.2.2.2
  have hmail : findJoinRequest jrs (updatedUser true ws we jrs u).email =
      findJoinRequest jrs u.email := by rw [hfr.2.1]
  cases hf : findJoinRequest jrs u.email with
  | none =>
    have h1 : updatedUser true ws we jrs u = u := by
      simp [updatedUser, hf]
    rw [h1]
    exact h1
  | some jr =>
    by_cases hst : (jr.status == "Approved") = true
    · by_cases hempty : (underTargetStudentsFor ws we u).isEmpty = true
      · by_cases hpos : 0 < u.lowLectureWeekCount
        · have h1 : updatedUser true ws we jrs u = { u with lowLectureWeekCount := 0, lastLowLectureWeek := none } := by
            simp [updatedUser, hf, hst, hempty, hpos]
          rw [h1]
          simp only [updatedUser]
          have hmail2 : findJoinRequest jrs ({ u with lowLectureWeekCount := 0, lastLowLectureWeek := none } : User).email = some jr := hf
          rw [hmail2]
          have hcong2 : underTargetStudentsFor ws we ({ u with lowLectureWeekCount := 0, lastLowLectureWeek := none } : User) = underTargetStudentsFor ws we u :=
            underTargetStudentsFor_congr ws we rfl rfl
          simp [hst, hcong2, hempty]
        · have h1 : updatedUser true ws we jrs u = u := by
            simp [updatedUser, hf, hst, hempty, hpos]
          rw [h1]
          exact h1
      · by_cases hbump : bumpGuard ws u = true
        · have h1 : updatedUser true ws we jrs u = { u with lowLectureWeekCount := u.lowLectureWeekCount + 1, lastLowLectureWeek := some ws } := by
            simp [updatedUser, hf, hst, hempty, hbump]
          rw [h1]
          simp only [updatedUser]
          have hmail2 : findJoinRequest jrs ({ u with lowLectureWeekCount := u.lowLectureWeekCount + 1, lastLowLectureWeek := some ws } : User).email = some jr := hf
          rw [hmail2]
          have hcong2 : underTargetStudentsFor ws we ({ u with lowLectureWeekCount := u.lowLectureWeekCount + 1, lastLowLectureWeek := some ws } : User) = underTargetStudentsFor ws we u :=
            underTargetStudentsFor_congr ws we rfl rfl
          have hbump2 : bumpGuard ws ({ u with lowLectureWeekCount := u.lowLectureWeekCount + 1, lastLowLectureWeek := some ws } : User) = false := by
            simp [bumpGuard]
          simp [hst, hcong2, hempty, hbump2]
        · have h1 : updatedUser true ws we jrs u = u := by
            simp [updatedUser, hf, hst, hempty, hbump]
          rw [h1]
          exact h1
    · have h1 : updatedUser true ws we jrs u = u := by
        simp [updatedUser, hf, hst]
      rw [h1]
      exact h1

/-- C3: (1) running the scheduled evaluation a second time with the same
"now" (hence the same computed `weekStart`) leaves every volunteer record
— in particular every flagged volunteer's `lowLectureWeekCount` —
unchanged, because the increment is guarded by the `lastLowLectureWeek`
comparison; (2) a scheduled update with a new, strictly later `weekStart`
increments a still-under-target volunteer's counter by exactly 1 and sets
`lastLowLectureWeek` to the new `weekStart`. -/
theorem scheduled_rerun_counter_behaviour :
    (∀ (now : DateTime) (s : Store),
      ((checkLowLectureMembers true now
          ((checkLowLectureMembers true now s).1)).1).users =
        ((checkLowLectureMembers true now s).1).users) ∧
    (∀ (ws2 we2 w : DateTime) (jrs : List JoinRequest) (u : User)
      (jr : JoinRequest),
      findJoinRequest jrs u.email = some jr → jr.status = "Approved" →
      u.lastLowLectureWeek = some w → w.toMillis < ws2.toMillis →
      underTargetStudentsFor ws2 we2 u ≠ [] →
      (updatedUser true ws2 we2 jrs u).lowLectureWeekCount =
          u.lowLectureWeekCount + 1 ∧
      (updatedUser true ws2 we2 jrs u).lastLowLectureWeek = some ws2) := by
  constructor
  · intro now s
    rw [check_users true now ((checkLowLectureMembers true now s).1),
      check_joinRequests true now s, check_users true now s, List.map_map]
    refine List.map_congr_left ?_
    intro a _
    show (fun u => if u.role == "user" then
        updatedUser true (computeWindow now).weekStart
          (computeWindow now).weekEnd s.joinRequests u else u)
      ((fun u => if u.role == "user" then
        updatedUser true (computeWindow now).weekStart
          (computeWindow now).weekEnd s.joinRequests u else u) a) = _
    by_cases hrole : (a.role == "user") = true
    · simp only [hrole, if_pos]
      have hrole2 : ((updatedUser true (computeWindow now).weekStart
          (computeWindow now).weekEnd s.joinRequests a).role == "user") = true := by
        rw [(updatedUser_frame _ _ _ _ _).2.2.1]
        exact hrole
      simp only [hrole2, if_pos]
      exact updatedUser_idem _ _ _ _
    · simp only [hrole, Bool.false_eq_true, if_false]
  · intro ws2 we2 w jrs u jr hf hst hlast hw hflag
    have hst' : (jr.status == "Approved") = true := by simp [hst]
    have hempty : (underTargetStudentsFor ws2 we2 u).isEmpty = false := by
      simpa using hflag
    have hbump : bumpGuard ws2 u = true := by
      simp [bumpGuard, hlast, hw]
    simp [updatedUser, hf, hst', hempty, hbump]

/-- C1: for a subject assignment of a student, the evaluator records the
(student, subject) pair as under-target — an entry
`{name, minLectures, deliveredLectures}` — exactly when the weekly
lecture count is strictly below the assignment's `minLectures`; and the
per-lecture counting filter holds exactly on the lectures whose
`createdAt` lies within `[weekStart, weekEnd]` (inclusive bounds), whose
(present, nonempty) `studentEmail` equals the student's email after
lowercasing and trimming, and whose `subject` equals the assignment's
name exactly. -/
theorem underTarget_entry_iff (ws we : DateTime) (lects : List Lecture)
    (st : Student) (a : SubjectAssignment) (ha : a ∈ st.subjects)
    (l : Lecture) :
    (((⟨a.name, a.minLectures, lectureCountFor lects ws we st.email a.name⟩ :
        UnderTargetSubject) ∈ underTargetSubjectsFor ws we lects st) ↔
      lectureCountFor lects ws we st.email a.name < a.minLectures) ∧
    (lectureMatches ws we st.email a.name l = true ↔
      lectureMatchesSpec ws we st.email a.name l) := by
  constructor
  · constructor
    · intro hmem
      rw [underTargetSubjectsFor, List.mem_filterMap] at hmem
      obtain ⟨b, hb, hfb⟩ := hmem
      simp only at hfb
      by_cases hlt : lectureCountFor lects ws we st.email b.name <
          b.minLectures
      · simp only [hlt, if_pos, Option.some.injEq,
          UnderTargetSubject.mk.injEq] at hfb
        obtain ⟨h1, h2, h3⟩ := hfb
        rw [h1, h2] at hlt
        exact hlt
      · simp [hlt] at hfb
    · intro hlt
      rw [underTargetSubjectsFor, List.mem_filterMap]
      exact ⟨a, ha, by simp [hlt]⟩
  · unfold lectureMatches lectureMatchesSpec
    cases hse : l.studentEmail with
    | none => simp
    | some e =>
      simp [Bool.and_eq_true, decide_eq_true_iff, beq_iff_eq,
        Bool.not_eq_true', and_assoc]

/-- Witness for `underTarget_entry_iff`: the "Math" assignment of the
fixture student, checked against the boundary lecture `wLecIn`. -/
theorem underTarget_entry_iff_witness :
    (((⟨"Math", 2, lectureCountFor wUser.lectures wWs wWe wStudent.email
        "Math"⟩ : UnderTargetSubject) ∈
        underTargetSubjectsFor wWs wWe wUser.lectures wStudent) ↔
      lectureCountFor wUser.lectures wWs wWe wStudent.email "Math" < 2) ∧
    (lectureMatches wWs wWe wStudent.email "Math" wLecIn = true ↔
      lectureMatchesSpec wWs wWe wStudent.email "Math" wLecIn) :=
  underTarget_entry_iff wWs wWe wUser.lectures wStudent ⟨"Math", 2⟩
    (by decide) wLecIn

/-- C10: the lectures attached to a flagged member are the volunteer's
entire stored lecture history — every stored lecture appears (projected),
regardless of whether its `createdAt` lies inside the evaluated window. -/
theorem flagged_member_lectures_full_history (isCronJob : Bool)
    (ws we : DateTime) (jrs : List JoinRequest) (u : User) (m : Member)
    (hm : memberFor isCronJob ws we jrs u = some m) (l : Lecture)
    (hl : l ∈ u.lectures) :
    m.lectures = u.lectures.map lectureView ∧ lectureView l ∈ m.lectures := by
  have hml : m.lectures = u.lectures.map lectureView := by
    unfold memberFor at hm
    cases hf : findJoinRequest jrs u.email with
    | none => rw [hf] at hm; exact Option.noConfusion hm
    | some jr =>
      rw [hf] at hm
      simp only at hm
      split_ifs at hm <;>
        first
          | exact Option.noConfusion hm
          | (injection hm with h; exact h ▸ rfl)
  refine ⟨hml, ?_⟩
  rw [hml]
  exact List.mem_map_of_mem lectureView hl

/-- Witness for `flagged_member_lectures_full_history`: the fixture member
contains the projection of the out-of-window lecture `wLecOld`. -/
theorem flagged_member_lectures_full_history_witness :
    wMember.lectures = wUser.lectures.map lectureView ∧
    lectureView wLecOld ∈ wMember.lectures :=
  flagged_member_lectures_full_history true wWs wWe [wJr] wUser wMember
    (by decide) wLecOld (by decide)

/-- C6: in scheduled mode, an evaluated volunteer (approved membership)
with no under-target (student, subject) pair — which includes a volunteer
with zero students — whose rolling counter is nonzero gets
`lowLectureWeekCount` reset to 0 and `lastLowLectureWeek` cleared, and is
never flagged. -/
theorem compliant_volunteer_counter_reset (ws we : DateTime)
    (jrs : List JoinRequest) (u : User) (jr : JoinRequest)
    (hf : findJoinRequest jrs u.email = some jr)
    (hst : jr.status = "Approved")
    (hcomp : underTargetStudentsFor ws we u = [])
    (hpos : 0 < u.lowLectureWeekCount) :
    (updatedUser true ws we jrs u).lowLectureWeekCount = 0 ∧
    (updatedUser true ws we jrs u).lastLowLectureWeek = none ∧
    memberFor true ws we jrs u = none := by
  have hst' : (jr.status == "Approved") = true := by simp [hst]
  have hempty : (underTargetStudentsFor ws we u).isEmpty = true := by
    simp [hcomp]
  refine ⟨?_, ?_, ?_⟩ <;>
    simp [updatedUser, memberFor, hf, hst', hempty, hpos]

/-- Witness for `compliant_volunteer_counter_reset`: the zero-students
fixture volunteer with counter 3. -/
theorem compliant_volunteer_counter_reset_witness :
    (updatedUser true wWs wWe [wJrC] wUserC).lowLectureWeekCount = 0 ∧
    (updatedUser true wWs wWe [wJrC] wUserC).lastLowLectureWeek = none ∧
    memberFor true wWs wWe [wJrC] wUserC = none :=
  compliant_volunteer_counter_reset wWs wWe [wJrC] wUserC wJrC (by decide)
    rfl rfl (by decide)

/-- A produced member record carries the volunteer's own id. -/
theorem memberFor_some_id (isCronJob : Bool) (ws we : DateTime)
    (jrs : List JoinRequest) (u : User) (m : Member)
    (hm : memberFor isCronJob ws we jrs u = some m) : m.id = u.id := by
  unfold memberFor at hm
  cases hf : findJoinRequest jrs u.email with
  | none => rw [hf] at hm; exact Option.noConfusion hm
  | some jr =>
    rw [hf] at hm
    simp only at hm
    split_ifs at hm <;>
      first
        | exact Option.noConfusion hm
        | (injection hm with h; exact h ▸ rfl)

/-- C9: a role-`user` volunteer whose membership record is missing or not
`Approved` is skipped entirely, in both modes: the volunteer record is not
mutated, no member entry is produced for it, it contributes no
notification, its unchanged record is still in the store after the run,
no member of the result carries its id (given unique ids), and the run
still reports success. -/
theorem unapproved_volunteer_skipped (isCronJob : Bool) (now : DateTime)
    (s : Store) (u : User) (notifs : List Notification)
    (hu : u ∈ s.users) (hrole : u.role = "user")
    (hskip : ∀ jr, findJoinRequest s.joinRequests u.email = some jr →
      jr.status ≠ "Approved")
    (hid : ∀ v ∈ s.users, v.id = u.id → v = u) :
    updatedUser isCronJob (computeWindow now).weekStart
        (computeWindow now).weekEnd s.joinRequests u = u ∧
    memberFor isCronJob (computeWindow now).weekStart
        (computeWindow now).weekEnd s.joinRequests u = none ∧
    userNotifStep isCronJob (computeWindow now).weekStart
        (computeWindow now).weekEnd s.joinRequests u notifs = notifs ∧
    u ∈ (checkLowLectureMembers isCronJob now s).1.users ∧
    (checkLowLectureMembers isCronJob now s).2.members.filter
        (fun m => m.id == u.id) = [] ∧
    (checkLowLectureMembers isCronJob now s).2.success = true := by
  have hcase : ∀ (P : Prop), (findJoinRequest s.joinRequests u.email = none → P) →
      (∀ jr, findJoinRequest s.joinRequests u.email = some jr →
        (jr.status == "Approved") = false → P) → P := by
    intro P hn hs2
    cases hf : findJoinRequest s.joinRequests u.email with
    | none => exact hn hf
    | some jr =>
      refine hs2 jr hf ?_
      have := hskip jr hf
      simpa using this
  have h1 : updatedUser isCronJob (computeWindow now).weekStart
      (computeWindow now).weekEnd s.joinRequests u = u := by
    refine hcase _ (fun hf => ?_) (fun jr hf hb => ?_)
    · simp [updatedUser, hf]
    · simp [updatedUser, hf, hb]
  have h2 : memberFor isCronJob (computeWindow now).weekStart
      (computeWindow now).weekEnd s.joinRequests u = none := by
    refine hcase _ (fun hf => ?_) (fun jr hf hb => ?_)
    · simp [memberFor, hf]
    · simp [memberFor, hf, hb]
  have h3 : userNotifStep isCronJob (computeWindow now).weekStart
      (computeWindow now).weekEnd s.joinRequests u notifs = notifs := by
    refine hcase _ (fun hf => ?_) (fun jr hf hb => ?_)
    · simp [userNotifStep, hf]
    · simp [userNotifStep, hf, hb]
  refine ⟨h1, h2, h3, ?_, ?_, rfl⟩
  · rw [check_users]
    have hmem := List.mem_map_of_mem (fun v =>
      if v.role == "user" then
        updatedUser isCronJob (computeWindow now).weekStart
          (computeWindow now).weekEnd s.joinRequests v
      else v) hu
    simpa [hrole, h1] using hmem
  · rw [check_members]
    rw [List.filter_eq_nil_iff]
    intro m hm
    simp only [beq_iff_eq]
    intro hmid
    rw [List.mem_filterMap] at hm
    obtain ⟨v, hv, hmv⟩ := hm
    have hvid : m.id = v.id := memberFor_some_id _ _ _ _ _ _ hmv
    have hv' : v ∈ s.users := List.mem_of_mem_filter hv
    have : v = u := hid v hv' (by rw [← hvid, hmid])
    rw [this] at hmv
    rw [h2] at hmv
    exact Option.noConfusion hmv

/-- Witness for `unapproved_volunteer_skipped`: the fixture volunteer with
no membership record at all. -/
theorem unapproved_volunteer_skipped_witness :
    updatedUser true (computeWindow wNow).weekStart
        (computeWindow wNow).weekEnd wStoreS.joinRequests wUserS = wUserS ∧
    memberFor true (computeWindow wNow).weekStart
        (computeWindow wNow).weekEnd wStoreS.joinRequests wUserS = none ∧
    userNotifStep true (computeWindow wNow).weekStart
        (computeWindow wNow).weekEnd wStoreS.joinRequests wUserS [] = [] ∧
    wUserS ∈ (checkLowLectureMembers true wNow wStoreS).1.users ∧
    (checkLowLectureMembers true wNow wStoreS).2.members.filter
        (fun m => m.id == wUserS.id) = [] ∧
    (checkLowLectureMembers true wNow wStoreS).2.success = true :=
  unapproved_volunteer_skipped true wNow wStoreS wUserS [] (by decide) rfl
    (fun jr h => Option.noConfusion h) (by decide)

/-- Deleting elements can only lower a `countP`. -/
theorem countP_filter_le {α : Type} (p q : α → Bool) :
    ∀ l : List α, List.countP p (l.filter q) ≤ List.countP p l := by
  intro l
  induction l with
  | nil => simp
  | cons x xs ih =>
    by_cases hq : q x = true
    · rw [List.filter_cons_of_pos hq, List.countP_cons, List.countP_cons]
      omega
    · rw [List.filter_cons_of_neg (by simpa using hq), List.countP_cons]
      omega

/-- One upsert-by-absence step preserves the per-key uniqueness invariant:
the notification is appended only when no notification with the same
(userId, subject, studentEmail) key exists. -/
theorem atMostOne_insert_step (l : List Notification) (uid : Nat)
    (st : Student) (e : UnderTargetSubject) (h : atMostOneLowNotif l) :
    atMostOneLowNotif
      (if notifExists l uid e.name (normEmail st.email) then l
       else l ++ [lowNotifFor uid st e]) := by
  by_cases hex : notifExists l uid e.name (normEmail st.email) = true
  · rw [if_pos hex]; exact h
  · rw [if_neg hex]
    intro uid2 subj2 em2
    rw [List.countP_append]
    by_cases hk : keyMatch uid2 subj2 em2 (lowNotifFor uid st e) = true
    · have hkey : uid = uid2 ∧ e.name = subj2 ∧ normEmail st.email = em2 := by
        have hk2 := hk
        simp only [keyMatch, lowNotifFor, Bool.and_eq_true, beq_iff_eq] at hk2
        exact ⟨hk2.1.1.1, hk2.1.2, hk2.2⟩
      obtain ⟨huid, hsubj, hem⟩ := hkey
      have hall : ∀ n ∈ l, ¬ keyMatch uid e.name (normEmail st.email) n = true := by
        intro n hn
        have := (List.any_eq_false).1 (by simpa [notifExists] using hex) n hn
        simpa using this
      have hzero : List.countP (keyMatch uid2 subj2 em2) l = 0 := by
        rw [List.countP_eq_zero]
        intro n hn
        rw [← huid, ← hsubj, ← hem]
        exact hall n hn
      rw [hzero]
      simp [List.countP_cons, hk]
    · have hone : List.countP (keyMatch uid2 subj2 em2) [lowNotifFor uid st e] = 0 := by
        rw [List.countP_eq_zero]
        intro n hn
        rw [List.mem_singleton] at hn
        rw [hn]
        simpa using hk
      rw [hone]
      simpa using h uid2 subj2 em2

/-- The per-volunteer notification pass preserves the invariant. -/
theorem userNotifStep_preserves (isCronJob : Bool) (ws we : DateTime)
    (jrs : List JoinRequest) (u : User) (notifs : List Notification)
    (h : atMostOneLowNotif notifs) :
    atMostOneLowNotif (userNotifStep isCronJob ws we jrs u notifs) := by
  unfold userNotifStep
  cases findJoinRequest jrs u.email with
  | none => exact h
  | some jr =>
    simp only
    split
    · refine foldl_preserve ?_ u.students notifs h
      intro acc st hacc
      refine foldl_preserve ?_ (underTargetSubjectsFor ws we u.lectures st)
        acc hacc
      intro acc2 e hacc2
      exact atMostOne_insert_step acc2 u.id st e hacc2
    · exact h

/-- C5: the at-most-one invariant for `low_lecture_count_per_subject`
notifications per (volunteer, subject, student) key is preserved by both
notification-affecting operations: the evaluator run (which creates a
notification only after an exact-key absence check, in cron mode), and a
successful lecture submission (which deletes every notification of the
submitted tuple's key before appending its `lecture_added` notification,
so afterwards no notification of that key remains at all). -/
theorem low_notif_unique_per_tuple (isCronJob : Bool) (now : DateTime)
    (s : Store) (isURL isEmail : String → Bool) (now2 : DateTime)
    (uid newId : Nat) (link lname subject studentEmail : String) (s2 : Store)
    (hinv : atMostOneLowNotif s.notifications) :
    atMostOneLowNotif
      ((checkLowLectureMembers isCronJob now s).1.notifications) ∧
    (addLecture isURL isEmail now2 s uid link lname subject studentEmail
        newId = Except.ok s2 →
      atMostOneLowNotif s2.notifications ∧
      s2.notifications.filter
        (keyMatch uid subject (normEmail studentEmail)) = []) := by
  constructor
  · rw [check_notifications]
    exact foldl_preserve
      (fun b a hb => userNotifStep_preserves _ _ _ _ a b hb) _ _ hinv
  · intro h
    simp only [addLecture] at h
    split_ifs at h
    cases hfu : s.users.find? (fun v => v.id == uid) with
    | none => rw [hfu] at h; exact Except.noConfusion h
    | some u =>
      rw [hfu] at h
      simp only at h
      split_ifs at h with hstud
      cases hfj : findJoinRequest s.joinRequests u.email with
      | none => rw [hfj] at h; exact Except.noConfusion h
      | some jr =>
        rw [hfj] at h
        simp only at h
        injection h with h2
        subst h2
        have htype : ∀ (u2 : Nat) (s3 e2 : String),
            keyMatch u2 s3 e2
              { userId := uid
                message := "تمت إضافة محاضرة جديدة بواسطة " ++ u.email ++
                  ": " ++ lname ++ " (" ++ subject ++ ") - " ++ link
                type := "lecture_added"
                details :=
                  { subject := subject
                    studentEmail := normEmail studentEmail
                    link := some link
                    name := some lname
                    minLectures := none
                    currentLectures := none } } = false := by
          intro u2 s3 e2
          have hne : (("lecture_added" : String) ==
              "low_lecture_count_per_subject") = false := by decide
          simp [keyMatch, hne]
        constructor
        · intro u2 s3 e2
          rw [List.countP_append]
          have hle := countP_filter_le (keyMatch u2 s3 e2)
            (fun n => !(keyMatch uid subject (normEmail studentEmail) n))
            s.notifications
          have hb := hinv u2 s3 e2
          have hz : List.countP (keyMatch u2 s3 e2)
              [({ userId := uid
                  message := "تمت إضافة محاضرة جديدة بواسطة " ++ u.email ++
                    ": " ++ lname ++ " (" ++ subject ++ ") - " ++ link
                  type := "lecture_added"
                  details :=
                    { subject := subject
                      studentEmail := normEmail studentEmail
                      link := some link
                      name := some lname
                      minLectures := none
                      currentLectures := none } } : Notification)] = 0 := by
            rw [List.countP_eq_zero]
            intro n hn
            rw [List.mem_singleton] at hn
            rw [hn]
            simp [htype u2 s3 e2]
          rw [hz]
          omega
        · rw [List.filter_append]
          have h1 : List.filter
              (keyMatch uid subject (normEmail studentEmail))
              (List.filter
                (fun n => !(keyMatch uid subject (normEmail studentEmail) n))
                s.notifications) = [] := by
            rw [List.filter_filter]
            rw [List.filter_eq_nil_iff]
            intro a _
            simp
          rw [h1]
          simp only [List.nil_append]
          rw [List.filter_eq_nil_iff]
          intro a ha
          rw [List.mem_singleton] at ha
          rw [ha]
          simp [htype]

/-- Witness for `low_notif_unique_per_tuple`: the fixture run and the
fixture lecture submission (which succeeds and yields `wStoreA`). -/
theorem low_notif_unique_per_tuple_witness :
    atMostOneLowNotif
      ((checkLowLectureMembers true wNow wStore).1.notifications) ∧
    atMostOneLowNotif wStoreA.notifications ∧
    wStoreA.notifications.filter
      (keyMatch 1 "Math" (normEmail "S@X.COM ")) = [] := by
  have h := low_notif_unique_per_tuple true wNow wStore wIsURL wIsEmail wNow
    1 9 "http://l" "L2" "Math" "S@X.COM " wStoreA
    (by intro uid subj em; simp [wStore])
  exact ⟨h.1, (h.2 rfl).1, (h.2 rfl).2⟩

/-- A `none` result of the report lookup (generalized over the fold
accumulator) means the accumulator was `none` and no report matches. -/
theorem findLatest_fold_none (ws : DateTime) :
    ∀ (l : List LowLectureReport) (acc : Option LowLectureReport),
      l.foldl (fun acc r =>
        if r.weekStart.toMillis == ws.toMillis then
          match acc with
          | none => some r
          | some b =>
            if decide (b.createdAt.toMillis < r.createdAt.toMillis) then some r
            else some b
        else acc) acc = none →
      acc = none ∧ ∀ r ∈ l, (r.weekStart.toMillis == ws.toMillis) = false := by
  intro l
  induction l with
  | nil => intro acc h; exact ⟨h, by simp⟩
  | cons x xs ih =>
    intro acc h
    rw [List.foldl_cons] at h
    by_cases hx : (x.weekStart.toMillis == ws.toMillis) = true
    · exfalso
      have h2 := ih _ h
      cases acc with
      | none => simp [hx] at h2
      | some b =>
        simp only [hx, if_pos] at h2
        rcases h2 with ⟨h2, _⟩
        split at h2 <;> exact Option.noConfusion h2
    · have hx' : (x.weekStart.toMillis == ws.toMillis) = false := by
        simpa using hx
      rw [if_neg (by simp [hx'])] at h
      have h2 := ih _ h
      refine ⟨h2.1, ?_⟩
      intro r hr
      rw [List.mem_cons] at hr
      cases hr with
      | inl he => rw [he]; exact hx'
      | inr hm => exact h2.2 r hm

/-- A `some` result of the report lookup is either the accumulator or a
matching report of the list, and its `createdAt` dominates both the
accumulator and every matching report of the list. -/
theorem findLatest_fold_some (ws : DateTime) :
    ∀ (l : List LowLectureReport) (acc : Option LowLectureReport)
      (r : LowLectureReport),
      l.foldl (fun acc r =>
        if r.weekStart.toMillis == ws.toMillis then
          match acc with
          | none => some r
          | some b =>
            if decide (b.createdAt.toMillis < r.createdAt.toMillis) then some r
            else some b
        else acc) acc = some r →
      (acc = some r ∨
        (r ∈ l ∧ (r.weekStart.toMillis == ws.toMillis) = true)) ∧
      (∀ b, acc = some b → b.createdAt.toMillis ≤ r.createdAt.toMillis) ∧
      (∀ q ∈ l, (q.weekStart.toMillis == ws.toMillis) = true →
        q.createdAt.toMillis ≤ r.createdAt.toMillis) := by
  intro l
  induction l with
  | nil =>
    intro acc r h
    exact ⟨Or.inl h, fun b hb => by rw [hb] at h; injection h with h; rw [h],
      by simp⟩
  | cons x xs ih =>
    intro acc r h
    rw [List.foldl_cons] at h
    by_cases hx : (x.weekStart.toMillis == ws.toMillis) = true
    · cases acc with
      | none =>
        simp only [hx, if_pos] at h
        have h2 := ih _ _ h
        refine ⟨?_, by simp, ?_⟩
        · cases h2.1 with
          | inl ha =>
            injection ha with ha
            exact Or.inr ⟨by rw [← ha]; exact List.mem_cons_self x xs,
              by rw [← ha]; exact hx⟩
          | inr hb => exact Or.inr ⟨List.mem_cons_of_mem x hb.1, hb.2⟩
        · intro q hq hqm
          rw [List.mem_cons] at hq
          cases hq with
          | inl he =>
            have := h2.2.1 x rfl
            rw [he]; exact this
          | inr hm => exact h2.2.2 q hm hqm
      | some b =>
        simp only [hx, if_pos] at h
        by_cases hcmp : (decide (b.createdAt.toMillis < r.createdAt.toMillis) :
            Bool) = true
        · by_cases hcmp2 : (decide (b.createdAt.toMillis < x.createdAt.toMillis) :
              Bool) = true
          · rw [if_pos hcmp2] at h
            have h2 := ih _ _ h
            refine ⟨?_, ?_, ?_⟩
            · cases h2.1 with
              | inl ha =>
                injection ha with ha
                exact Or.inr ⟨by rw [← ha]; exact List.mem_cons_self x xs,
                  by rw [← ha]; exact hx⟩
              | inr hb => exact Or.inr ⟨List.mem_cons_of_mem x hb.1, hb.2⟩
            · intro b2 hb2
              injection hb2 with hb2
              subst hb2
              have hx2 := h2.2.1 x rfl
              have := of_decide_eq_true hcmp2
              omega
            · intro q hq hqm
              rw [List.mem_cons] at hq
              cases hq with
              | inl he => rw [he]; exact h2.2.1 x rfl
              | inr hm => exact h2.2.2 q hm hqm
          · rw [if_neg (by simpa using hcmp2)] at h
            have h2 := ih _ _ h
            refine ⟨?_, h2.2.1, ?_⟩
            · cases h2.1 with
              | inl ha => exact Or.inl ha
              | inr hb => exact Or.inr ⟨List.mem_cons_of_mem x hb.1, hb.2⟩
            · intro q hq hqm
              rw [List.mem_cons] at hq
              cases hq with
              | inl he =>
                have hb2 := h2.2.1 b rfl
                have hxb : x.createdAt.toMillis <= b.createdAt.toMillis := by
                  simpa using hcmp2
                rw [he]; omega
              | inr hm => exact h2.2.2 q hm hqm
        · by_cases hcmp2 : (decide (b.createdAt.toMillis < x.createdAt.toMillis) :
              Bool) = true
          · rw [if_pos hcmp2] at h
            have h2 := ih _ _ h
            refine ⟨?_, ?_, ?_⟩
            · cases h2.1 with
              | inl ha =>
                injection ha with ha
                exact Or.inr ⟨by rw [← ha]; exact List.mem_cons_self x xs,
                  by rw [← ha]; exact hx⟩
              | inr hb => exact Or.inr ⟨List.mem_cons_of_mem x hb.1, hb.2⟩
            · intro b2 hb2
              injection hb2 with hb2
              subst hb2
              have hx2 := h2.2.1 x rfl
              have := of_decide_eq_true hcmp2
              omega
            · intro q hq hqm
              rw [List.mem_cons] at hq
              cases hq with
              | inl he => rw [he]; exact h2.2.1 x rfl
              | inr hm => exact h2.2.2 q hm hqm
          · rw [if_neg (by simpa using hcmp2)] at h
            have h2 := ih _ _ h
            refine ⟨?_, h2.2.1, ?_⟩
            · cases h2.1 with
              | inl ha => exact Or.inl ha
              | inr hb => exact Or.inr ⟨List.mem_cons_of_mem x hb.1, hb.2⟩
            · intro q hq hqm
              rw [List.mem_cons] at hq
              cases hq with
              | inl he =>
                have hb2 := h2.2.1 b rfl
                have hxb : x.createdAt.toMillis <= b.createdAt.toMillis := by
                  simpa using hcmp2
                rw [he]; omega
              | inr hm => exact h2.2.2 q hm hqm
    · rw [if_neg (by simpa using hx)] at h
      have h2 := ih _ _ h
      refine ⟨?_, h2.2.1, ?_⟩
      · cases h2.1 with
        | inl ha => exact Or.inl ha
        | inr hb => exact Or.inr ⟨List.mem_cons_of_mem x hb.1, hb.2⟩
      · intro q hq hqm
        rw [List.mem_cons] at hq
        cases hq with
        | inl he =>
          exfalso
          rw [he] at hqm
          rw [hqm] at hx
          exact hx rfl
        | inr hm => exact h2.2.2 q hm hqm

/-- C7: the on-demand query leaves the store unchanged; when a stored
report with the currently-computed `weekStart` exists, the lookup returns
the most recent such report (it is in the store, matches the `weekStart`,
and its `createdAt` dominates every other matching report) and the
response carries its contents verbatim; when none exists, the response is
exactly the live non-scheduled evaluation, which is not persisted. -/
theorem onDemand_cached_report (now : DateTime) (s : Store) :
    (getLowLectureMembers now s).1 = s ∧
    (∀ r, findLatestReport s.reports (computeWindow now).weekStart = some r →
      (getLowLectureMembers now s).2.members = r.members ∧
      (getLowLectureMembers now s).2.totalUsersProcessed =
        r.totalUsersProcessed ∧
      (getLowLectureMembers now s).2.weekStart = r.weekStart ∧
      (getLowLectureMembers now s).2.weekEnd = r.weekEnd ∧
      (getLowLectureMembers now s).2.membersWithLowLectures =
        r.membersWithLowLectures ∧
      r ∈ s.reports ∧
      r.weekStart.toMillis = (computeWindow now).weekStart.toMillis ∧
      (∀ q ∈ s.reports,
        q.weekStart.toMillis = (computeWindow now).weekStart.toMillis →
        q.createdAt.toMillis ≤ r.createdAt.toMillis)) ∧
    (findLatestReport s.reports (computeWindow now).weekStart = none →
      (getLowLectureMembers now s).2 = (checkLowLectureMembers false now s).2) := by
  cases hfr : findLatestReport s.reports (computeWindow now).weekStart with
  | some r0 =>
    refine ⟨by simp [getLowLectureMembers, hfr], ?_, ?_⟩
    · intro r hr
      injection hr with hr
      subst hr
      have hfr2 := hfr
      unfold findLatestReport at hfr2
      have hspec := findLatest_fold_some (computeWindow now).weekStart
        s.reports none r0 hfr2
      have hmem : r0 ∈ s.reports ∧
          (r0.weekStart.toMillis == (computeWindow now).weekStart.toMillis) =
            true := by
        cases hspec.1 with
        | inl ha => exact Option.noConfusion ha
        | inr hb => exact hb
      refine ⟨by simp [getLowLectureMembers, hfr],
        by simp [getLowLectureMembers, hfr],
        by simp [getLowLectureMembers, hfr],
        by simp [getLowLectureMembers, hfr],
        by simp [getLowLectureMembers, hfr],
        hmem.1, by simpa using hmem.2, ?_⟩
      intro q hq hqm
      exact hspec.2.2 q hq (by simpa using hqm)
    · intro hn
      exact Option.noConfusion hn
  | none =>
    refine ⟨?_, ?_, ?_⟩
    · have : (getLowLectureMembers now s).1 =
          (checkLowLectureMembers false now s).1 := by
        simp [getLowLectureMembers, hfr]
      rw [this]
      exact check_not_cron_store now s
    · intro r hr
      exact Option.noConfusion hr
    · intro _
      simp [getLowLectureMembers, hfr]

/-- Witness for `onDemand_cached_report`: the fixture store with two
cached reports (the later one is returned, the store untouched) and the
fixture store with no report (live non-cron result, store untouched). -/
theorem onDemand_cached_report_witness :
    (getLowLectureMembers wNow wStoreR).1 = wStoreR ∧
    (getLowLectureMembers wNow wStoreR).2.members = wReport2.members ∧
    wReport2 ∈ wStoreR.reports ∧
    (getLowLectureMembers wNow wStore).1 = wStore ∧
    (getLowLectureMembers wNow wStore).2 =
      (checkLowLectureMembers false wNow wStore).2 := by
  have hR := onDemand_cached_report wNow wStoreR
  have hL := onDemand_cached_report wNow wStore
  have hfind : findLatestReport wStoreR.reports
      (computeWindow wNow).weekStart = some wReport2 := by decide
  have hnone : findLatestReport wStore.reports
      (computeWindow wNow).weekStart = none := by decide
  exact ⟨hR.1, (hR.2.1 wReport2 hfind).1,
    (hR.2.1 wReport2 hfind).2.2.2.2.2.1, hL.1, hL.2.2 hnone⟩

/-- C8: the transactional wrapper commits all of the run's mutations
exactly when no session operation failed, and on any failure returns the
store unchanged together with a propagated error — never a partial
state. -/
theorem run_transaction_all_or_nothing (fail isCronJob : Bool)
    (now : DateTime) (s : Store) :
    (fail = true →
      runCheckTx fail isCronJob now s = (s, Except.error "db error")) ∧
    (fail = false →
      runCheckTx fail isCronJob now s =
        ((checkLowLectureMembers isCronJob now s).1,
         Except.ok (checkLowLectureMembers isCronJob now s).2)) := by
  constructor <;> intro h <;> subst h <;> rfl

/-- Witness for `run_transaction_all_or_nothing` at the fixture store. -/
theorem run_transaction_all_or_nothing_witness :
    runCheckTx true true wNow wStore = (wStore, Except.error "db error") ∧
    runCheckTx false true wNow wStore =
      ((checkLowLectureMembers true wNow wStore).1,
       Except.ok (checkLowLectureMembers true wNow wStore).2) :=
  ⟨(run_transaction_all_or_nothing true true wNow wStore).1 rfl,
   (run_transaction_all_or_nothing false true wNow wStore).2 rfl⟩

/-- Witness for `scheduled_rerun_counter_behaviour`: the double run on the
fixture store, and the per-user increment on the fixture volunteer whose
`lastLowLectureWeek` precedes the fixture week. -/
theorem scheduled_rerun_counter_behaviour_witness :
    ((checkLowLectureMembers true wNow
        ((checkLowLectureMembers true wNow wStore).1)).1).users =
      ((checkLowLectureMembers true wNow wStore).1).users ∧
    (updatedUser true wWs wWe [wJr] wUser).lowLectureWeekCount =
      wUser.lowLectureWeekCount + 1 ∧
    (updatedUser true wWs wWe [wJr] wUser).lastLowLectureWeek = some wWs := by
  have h2 := (scheduled_rerun_counter_behaviour).2 wWs wWe ⟨-1, 0⟩ [wJr]
    wUser wJr (by decide) rfl rfl (by decide) (by decide)
  exact ⟨(scheduled_rerun_counter_behaviour).1 wNow wStore, h2.1, h2.2⟩
